import Mathlib

/-!
# simplot / rootprob3pp : the parameter and probability-query layer

A shallow embedding of `src/simplot/rootprob3pp/Prob3ppProbability.{hxx,cxx}`.

* C++ `int` is `Int`; the one place where the machine width is visible
  (`abs`, the products `cp*initFlavour`) goes through `wrapInt`, the
  two's-complement reduction to 32 bits.
* C++ `double` is an arbitrary field `R` (exact arithmetic); concrete
  evaluations take `R := ℚ`. The one division of the sources whose divisor
  can be zero, `psum / double(count)`, is kept apart from the field's
  division: its result is a `DoubleQuotient`, which tells a quotient by a
  non-zero divisor from a division by zero.
* `TMath` (ROOT) and the Prob3++ `BargerPropagator` are not part of the
  repository. The mathematical functions are a parameter (`TMath R`); the
  propagator is represented by the list of calls it has received, and the
  number its `GetProb` answers, given those calls, is a parameter
  (`Engine R`).
* `throw std::exception()` is the `error` side of a result; the object state
  that is left behind is returned next to it.
-/

namespace crootprob3pp

/-! ## Machine integers -/

/-- Reduction of an integer to the 32-bit two's-complement range. -/
def wrapInt (x : Int) : Int := (x + 2147483648) % 4294967296 - 2147483648

/-- The values an `int` can hold. -/
def isInt32 (x : Int) : Prop := -2147483648 ≤ x ∧ x ≤ 2147483647

instance (x : Int) : Decidable (isInt32 x) := by unfold isInt32; infer_instance

/-- The C library `abs` on `int`. -/
def abs (x : Int) : Int := wrapInt (if x < 0 then -x else x)

/-- The C++ product of two `int`s. -/
def imul (a b : Int) : Int := wrapInt (a * b)

/-! ## Exceptions -/

/-- The only exception the sources throw: `std::exception()`. -/
inductive StdException where
  | exception
  deriving DecidableEq

/-! ## Division of doubles -/

/-- The result of a C++ division of two doubles. With a divisor that is not
zero it is the number `value (x / y)`. With a zero divisor IEEE-754 gives no
number: `byZero x` stands for the quotient of `x` by zero, which is NaN when
`x` is zero and an infinity otherwise. -/
inductive DoubleQuotient (R : Type) where
  | value (x : R)
  | byZero (numerator : R)
  deriving DecidableEq

/-- The C++ expression `x / double(k)` for a double `x` and an `int` `k`. The
conversion of an `int` to `double` is exact, so the divisor is zero exactly
when `k` is `0`. -/
def divByInt {R : Type} [Field R] (x : R) (k : Int) : DoubleQuotient R :=
  if k = 0 then DoubleQuotient.byZero x else DoubleQuotient.value (x / (k : R))

/-! ## Flavour and CP (`Prob3ppProbability.hxx` 12-28, `.cxx` 3-27) -/

namespace Flavour

def NU_E : Int := 1
def NU_MU : Int := 2
def NU_TAU : Int := 3

/-- Source: `int crootprob3pp::Flavour::frompdg(int pdg)`. -/
def frompdg (pdg : Int) : Except StdException Int :=
  if abs pdg = 12 then
    .ok NU_E
  else if abs pdg = 14 then
    .ok NU_MU
  else if abs pdg = 16 then
    .ok NU_TAU
  else
    .error StdException.exception

end Flavour

namespace CP

def MATTER : Int := 1
def ANTI_MATTER : Int := -1

/-- Source: `int crootprob3pp::CP::frompdg(int pdg)`: there is no `throw` on any path. -/
def frompdg (pdg : Int) : Int :=
  if pdg < 0 then
    ANTI_MATTER
  else
    MATTER

end CP

/-! ## The external collaborators -/

/-- The functions of ROOT's `TMath` that the sources use. -/
structure TMath (R : Type) where
  Pi : R
  Sin : R → R
  ASin : R → R
  Sqrt : R → R

/-- One call on the `BargerPropagator` owned by a `Probability`. -/
inductive EngineCall (R : Type) where
  | UseMassEigenstates (x : Bool)
  | SetMNS (x12 x13 x23 m21 m32 delta energy : R) (kSquared : Bool) (kNuType : Int)
  | propagateLinear (nuFlavor : Int) (pathLength density : R)
  | GetProb (nuIn nuOut : Int)
  deriving DecidableEq

/-- The behaviour of the external propagator: the value `GetProb(nuIn, nuOut)`
returns when the propagator has received the calls `history` (oldest first,
this `GetProb` not among them) since it was created. -/
structure Engine (R : Type) where
  GetProb : (history : List (EngineCall R)) → (nuIn nuOut : Int) → R

/-! ## `class Probability` -/

/-- The members of `crootprob3pp::Probability`. `bargerprop` is the propagator
the object owns, as the calls made on it so far (oldest first). -/
structure Probability (R : Type) where
  bargerprop : List (EngineCall R)
  theta12 : R
  theta13 : R
  theta23 : R
  deltacp : R
  sdm : R
  ldm : R
  length : R
  istouched : Bool
  deriving DecidableEq

namespace Probability

variable {R : Type}

/-- Source: `static const bool kSquared = 1;` -/
def kSquared : Bool := true

/-- Source: `inline void touch()`. -/
def touch (s : Probability R) : Probability R :=
  { s with istouched := true }

/-- Source: `inline double sinsq(double x)`. -/
def sinsq [Field R] (tm : TMath R) (x : R) : R :=
  let x := tm.Sin x
  x * x

/-- Source: `void update()`: every line but the assignment is commented out. -/
def update (s : Probability R) : Probability R :=
  { s with istouched := false }

/-- Source: `Probability::Probability()`. The member `istouched` has no initialiser;
`junk` is the indeterminate value it holds until `update()` assigns it. -/
def new [Field R] (tm : TMath R) (junk : Bool) : Probability R :=
  let bargerprop : List (EngineCall R) := [EngineCall.UseMassEigenstates false]
  let sinSq_2theta23 : R := ((1.0 : ℚ) : R)
  let sinSq_2theta13 : R := ((0.1 : ℚ) : R)
  let sinSq_2theta12 : R := ((0.8495 : ℚ) : R)
  let deltaCP : R := tm.Pi / ((2.0 : ℚ) : R)
  let delta_MSq32 : R := ((2.4e-3 : ℚ) : R)
  let delta_MSq12 : R := ((7.6e-5 : ℚ) : R)
  update
    { bargerprop := bargerprop
      theta12 := tm.ASin (tm.Sqrt sinSq_2theta12) / ((2.0 : ℚ) : R)
      theta13 := tm.ASin (tm.Sqrt sinSq_2theta13) / ((2.0 : ℚ) : R)
      theta23 := tm.ASin (tm.Sqrt sinSq_2theta23) / ((2.0 : ℚ) : R)
      deltacp := deltaCP
      sdm := delta_MSq12
      ldm := delta_MSq32
      length := ((295.0 : ℚ) : R)
      istouched := junk }

/-- Source: `void setAll(double theta12_, double theta23_, double theta13_,
double deltacp_, double sdm_, double ldm_)`. -/
def setAll (s : Probability R) (theta12_ theta23_ theta13_ deltacp_ sdm_ ldm_ : R) :
    Probability R :=
  touch { s with
    theta12 := theta12_
    theta23 := theta23_
    theta13 := theta13_
    deltacp := deltacp_
    sdm := sdm_
    ldm := ldm_ }

def setTheta12 (s : Probability R) (theta12_ : R) : Probability R :=
  touch { s with theta12 := theta12_ }

def setTheta23 (s : Probability R) (theta23_ : R) : Probability R :=
  touch { s with theta23 := theta23_ }

def setTheta13 (s : Probability R) (theta13_ : R) : Probability R :=
  touch { s with theta13 := theta13_ }

def setDeltaCP (s : Probability R) (deltacp_ : R) : Probability R :=
  touch { s with deltacp := deltacp_ }

def setSmallDeltaMassSquared (s : Probability R) (sdm_ : R) : Probability R :=
  touch { s with sdm := sdm_ }

def setLargeDeltaMassSquared (s : Probability R) (ldm_ : R) : Probability R :=
  touch { s with ldm := ldm_ }

/-- Source: `void setBaseline(double l)`: no call of `touch()`. -/
def setBaseline (s : Probability R) (l : R) : Probability R :=
  { s with length := l }

/-- A call on the owned propagator: it is appended to the record. -/
def call (s : Probability R) (c : EngineCall R) : Probability R :=
  { s with bargerprop := s.bargerprop ++ [c] }

/-- Source: `double getVacuumProbability(int initFlavour, int finalFlavour,
double energy, int cp)`. The result is the returned value or the exception,
together with the object as the call leaves it. -/
def getVacuumProbability [Field R] (eng : Engine R) (tm : TMath R) (s : Probability R)
    (initFlavour finalFlavour : Int) (energy : R) (cp : Int) :
    Except StdException R × Probability R :=
  if s.istouched then
    (.error StdException.exception, s)
  else
    let sinsq_theta12 := sinsq tm s.theta12
    let sinsq_theta13 := sinsq tm s.theta13
    let sinsq_theta23 := sinsq tm s.theta23
    let dm32 := s.ldm - s.sdm
    let s := s.call (EngineCall.SetMNS sinsq_theta12 sinsq_theta13 sinsq_theta23 s.sdm dm32
      s.deltacp energy kSquared cp)
    let s := s.call (EngineCall.propagateLinear cp s.length ((2.6 : ℚ) : R))
    let p := eng.GetProb s.bargerprop (imul cp initFlavour) (imul cp finalFlavour)
    let s := s.call (EngineCall.GetProb (imul cp initFlavour) (imul cp finalFlavour))
    (.ok p, s)

/-- Source: `double prob(int initFlavour, int finalFlavour, double energy, int cp)`. -/
def prob [Field R] (eng : Engine R) (tm : TMath R) (s : Probability R)
    (initFlavour finalFlavour : Int) (energy : R) (cp : Int) :
    Except StdException R × Probability R :=
  s.getVacuumProbability eng tm initFlavour finalFlavour energy cp

/-- The `for` loop of `averageprob`, entered with the loop variable `i` and the
locals `psum` and `count`; it yields the final `psum` and `count`, or the
exception that left the loop. -/
def averageprobLoop [Field R] (eng : Engine R) (tm : TMath R)
    (initFlavour finalFlavour : Int) (energylow energyhigh : R) (cp nsamples : Int)
    (i : Int) (psum : R) (count : Int) (s : Probability R) :
    Except StdException (R × Int) × Probability R :=
  if i < nsamples then
    let frac : R := (i : R) / (nsamples : R)
    let enu : R := ((1 - frac) * energylow) + (frac * energyhigh)
    match s.prob eng tm initFlavour finalFlavour enu cp with
    | (.ok p, s) =>
      averageprobLoop eng tm initFlavour finalFlavour energylow energyhigh cp nsamples
        (i + 1) (psum + p) (count + 1) s
    | (.error e, s) => (.error e, s)
  else
    (.ok (psum, count), s)
termination_by (nsamples - i).toNat
decreasing_by omega

/-- Source: `double averageprob(int initFlavour, int finalFlavour, double energylow,
double energyhigh, int cp, int nsamples)`. The value returned is that of
`psum / double(count)`: a number when `count` is not zero, the quotient of
`psum` by zero when the loop had no turn. -/
def averageprob [Field R] (eng : Engine R) (tm : TMath R) (s : Probability R)
    (initFlavour finalFlavour : Int) (energylow energyhigh : R) (cp nsamples : Int) :
    Except StdException (DoubleQuotient R) × Probability R :=
  match averageprobLoop eng tm initFlavour finalFlavour energylow energyhigh cp nsamples
      0 0 0 s with
  | (.ok (psum, count), s) => (.ok (divByInt psum count), s)
  | (.error e, s) => (.error e, s)

end Probability

/-! ## Concrete inputs

Stand-ins over `ℚ` for the two external collaborators, used where a statement
is evaluated at a concrete input. -/

/-- A `TMath` over `ℚ`: `355/113` for `Pi()`, and the identity for `Sin`,
`ASin` and `Sqrt`. -/
def sampleTMath : TMath ℚ :=
  { Pi := 355 / 113
    Sin := fun x => x
    ASin := fun x => x
    Sqrt := fun x => x }

/-- The energy of the most recent `SetMNS` in a call record, `0` without one. -/
def lastEnergy : List (EngineCall ℚ) → ℚ
  | [] => 0
  | EngineCall.SetMNS _ _ _ _ _ _ energy _ _ :: rest =>
    if rest.any (fun c => match c with
        | EngineCall.SetMNS _ _ _ _ _ _ _ _ _ => true
        | _ => false) then lastEnergy rest else energy
  | _ :: rest => lastEnergy rest

/-- An engine over `ℚ` whose `GetProb` answers the energy it was last
configured with. -/
def echoEngine : Engine ℚ :=
  { GetProb := fun history _ _ => lastEnergy history }

/-- A clean object over `ℚ`, written out member by member. -/
def sampleState : Probability ℚ :=
  { bargerprop := [EngineCall.UseMassEigenstates false]
    theta12 := 3 / 5
    theta13 := 1 / 6
    theta23 := 3 / 4
    deltacp := 3 / 2
    sdm := 1 / 10
    ldm := 1 / 2
    length := 295
    istouched := false }

/-! ## Definitions used to state the properties -/

section statements

/-- The three calls one successful query makes on the propagator. -/
def queryCalls {R : Type} [Field R]
    (tm : TMath R) (s : Probability R) (initFlavour finalFlavour : Int)
    (energy : R) (cp : Int) : List (EngineCall R) :=
  [ EngineCall.SetMNS (tm.Sin s.theta12 ^ 2) (tm.Sin s.theta13 ^ 2) (tm.Sin s.theta23 ^ 2)
      s.sdm (s.ldm - s.sdm) s.deltacp energy true cp,
    EngineCall.propagateLinear cp s.length ((2.6 : ℚ) : R),
    EngineCall.GetProb (imul cp initFlavour) (imul cp finalFlavour) ]

/-- The energies the specification names for `averageProbability`:
`energy_i = energyLow + (i / sampleCount) * (energyHigh − energyLow)` for
`i` in `[0, sampleCount)`. -/
def sampleEnergies {R : Type} [Field R] (energylow energyhigh : R) (nsamples : Int) :
    List R :=
  (List.range nsamples.toNat).map
    (fun i : ℕ => energylow + ((i : R) / (nsamples : R)) * (energyhigh - energylow))

/-- The values `prob` returns when it is queried at the energies of a list,
one query after the other on the same object, up to the first query that
throws; next to them, the object as the last query made leaves it. -/
def probRun {R : Type} [Field R] (eng : Engine R) (tm : TMath R)
    (initFlavour finalFlavour : Int) (cp : Int) :
    List R → Probability R → Except StdException (List R) × Probability R
  | [], s => (.ok [], s)
  | energy :: rest, s =>
    match s.prob eng tm initFlavour finalFlavour energy cp with
    | (.ok p, s) =>
      match probRun eng tm initFlavour finalFlavour cp rest s with
      | (.ok ps, s) => (.ok (p :: ps), s)
      | (.error e, s) => (.error e, s)
    | (.error e, s) => (.error e, s)

/-- The energy arguments of the `SetMNS` calls of a call record, in order. -/
def setMNSEnergies {R : Type} : List (EngineCall R) → List R
  | [] => []
  | EngineCall.SetMNS _ _ _ _ _ _ energy _ _ :: rest => energy :: setMNSEnergies rest
  | _ :: rest => setMNSEnergies rest

/-- The object a clean `s` becomes through successful queries at the energies
`es`: the three calls of each query are added to the record, in order. -/
def afterQueries {R : Type} [Field R] (tm : TMath R) (s : Probability R)
    (initFlavour finalFlavour : Int) (cp : Int) (es : List R) : Probability R :=
  { s with bargerprop :=
      s.bargerprop ++ es.flatMap (fun e => queryCalls tm s initFlavour finalFlavour e cp) }

/-- The energy the body of the loop of `averageprob` computes when the loop
variable is `i` (`Prob3ppProbability.cxx` 145-146): `frac`, then `enu`. -/
def averageprobEnergy {R : Type} [Field R] (energylow energyhigh : R) (nsamples i : Int) :
    R :=
  let frac : R := (i : R) / (nsamples : R)
  ((1 - frac) * energylow) + (frac * energyhigh)

end statements

/-! ## Basic facts about the query -/

section lemmas

/-- A division by a converted `int` that is not zero is the field's quotient. -/
theorem divByInt_of_ne_zero {R : Type} [Field R] (x : R) (k : Int) (hk : k ≠ 0) :
    divByInt x k = DoubleQuotient.value (x / (k : R)) := by
  simp [divByInt, hk]

/-- A division by the converted `int` zero is a division by zero. -/
theorem divByInt_zero {R : Type} [Field R] (x : R) :
    divByInt x 0 = DoubleQuotient.byZero x := by
  simp [divByInt]

theorem getVacuumProbability_touched {R : Type} [Field R]
    (eng : Engine R) (tm : TMath R) (s : Probability R)
    (a b : Int) (e : R) (cp : Int) (h : s.istouched = true) :
    s.getVacuumProbability eng tm a b e cp = (.error StdException.exception, s) := by
  simp [Probability.getVacuumProbability, h]

theorem getVacuumProbability_clean {R : Type} [Field R]
    (eng : Engine R) (tm : TMath R) (s : Probability R)
    (a b : Int) (e : R) (cp : Int) (h : s.istouched = false) :
    s.getVacuumProbability eng tm a b e cp =
      (.ok (eng.GetProb (s.bargerprop ++ (queryCalls tm s a b e cp).take 2)
              (imul cp a) (imul cp b)),
       { s with bargerprop := s.bargerprop ++ queryCalls tm s a b e cp }) := by
  simp [Probability.getVacuumProbability, h, Probability.call, Probability.sinsq,
    Probability.kSquared, queryCalls, pow_two]

/-- A query on a touched object throws and leaves the object as it was. -/
theorem prob_touched {R : Type} [Field R] (eng : Engine R) (tm : TMath R) (s : Probability R)
    (a b : Int) (e : R) (cp : Int) (h : s.istouched = true) :
    s.prob eng tm a b e cp = (.error StdException.exception, s) :=
  getVacuumProbability_touched eng tm s a b e cp h

/-- A query on an untouched object returns what `GetProb` answers. -/
theorem prob_clean {R : Type} [Field R] (eng : Engine R) (tm : TMath R) (s : Probability R)
    (a b : Int) (e : R) (cp : Int) (h : s.istouched = false) :
    s.prob eng tm a b e cp =
      (.ok (eng.GetProb (s.bargerprop ++ (queryCalls tm s a b e cp).take 2)
              (imul cp a) (imul cp b)),
       { s with bargerprop := s.bargerprop ++ queryCalls tm s a b e cp }) :=
  getVacuumProbability_clean eng tm s a b e cp h

/-- The loop of `averageprob`, entered at `i = j` with `k` iterations left, is
the run of `prob` over the specification's energies `j, …, j + k - 1`. -/
theorem averageprobLoop_eq_probRun {R : Type} [Field R] (eng : Engine R) (tm : TMath R)
    (a b : Int) (lo hi : R) (cp n : Int) (k : ℕ) :
    ∀ (j : ℕ) (psum : R) (count : Int) (s : Probability R), (j : Int) + k = n →
      Probability.averageprobLoop eng tm a b lo hi cp n j psum count s =
        match probRun eng tm a b cp
            ((List.range' j k).map
              (fun i : ℕ => lo + ((i : R) / (n : R)) * (hi - lo))) s with
        | (.ok ps, s) => (.ok (psum + ps.sum, count + ps.length), s)
        | (.error e, s) => (.error e, s) := by
  induction k with
  | zero =>
    intro j psum count s h
    rw [Probability.averageprobLoop]
    have : ¬ ((j : Int) < n) := by omega
    simp [this, probRun]
  | succ k ih =>
    intro j psum count s h
    rw [Probability.averageprobLoop]
    have hlt : (j : Int) < n := by omega
    have he : ((1 - ((j : Int) : R) / (n : R)) * lo) + (((j : Int) : R) / (n : R) * hi)
        = lo + ((j : R) / (n : R)) * (hi - lo) := by
      push_cast; ring
    simp only [hlt, if_true, he, List.range'_succ, List.map_cons, probRun]
    rcases hq : s.prob eng tm a b (lo + ((j : R) / (n : R)) * (hi - lo)) cp with ⟨r, s1⟩
    cases r with
    | error e => rfl
    | ok p =>
      have h1 : ((j + 1 : ℕ) : Int) + k = n := by push_cast; omega
      have := ih (j + 1) (psum + p) (count + 1) s1 h1
      simp only [Nat.cast_add, Nat.cast_one] at this
      simp only [this]
      rcases probRun eng tm a b cp _ s1 with ⟨r2, s2⟩
      cases r2 with
      | error e => rfl
      | ok ps =>
        simp only [List.sum_cons, List.length_cons, Nat.cast_add, Nat.cast_one, add_assoc]
        congr 3
        ring

/-- On every object, `averageprob` with `nsamples ≥ 0` is the run of `prob` over
the specification's energies, followed by the division of the sum by the count. -/
theorem averageprob_eq_probRun {R : Type} [Field R] (eng : Engine R) (tm : TMath R)
    (s : Probability R) (a b : Int) (lo hi : R) (cp n : Int) (hn : 0 ≤ n) :
    s.averageprob eng tm a b lo hi cp n =
      match probRun eng tm a b cp (sampleEnergies lo hi n) s with
      | (.ok ps, s) => (.ok (divByInt ps.sum (ps.length : Int)), s)
      | (.error e, s) => (.error e, s) := by
  have h := averageprobLoop_eq_probRun eng tm a b lo hi cp n n.toNat 0 0 0 s
    (by simp [Int.toNat_of_nonneg hn])
  simp only [Nat.cast_zero] at h
  rw [Probability.averageprob, h, sampleEnergies, List.range_eq_range']
  rcases probRun eng tm a b cp _ s with ⟨r, s1⟩
  cases r with
  | error e => rfl
  | ok ps => simp

/-- On a clean object no query of a run throws, and the run leaves the object
with the three calls of every query added to the record. -/
theorem probRun_clean {R : Type} [Field R] (eng : Engine R) (tm : TMath R)
    (a b : Int) (cp : Int) (es : List R) :
    ∀ s : Probability R, s.istouched = false →
      ∃ ps : List R, ps.length = es.length ∧
        probRun eng tm a b cp es s = (.ok ps, afterQueries tm s a b cp es) := by
  induction es with
  | nil => intro s _; exact ⟨[], rfl, by simp [probRun, afterQueries]⟩
  | cons e es ih =>
    intro s hs
    obtain ⟨ps, hlen, hrun⟩ := ih
      { s with bargerprop := s.bargerprop ++ queryCalls tm s a b e cp } hs
    refine ⟨eng.GetProb (s.bargerprop ++ (queryCalls tm s a b e cp).take 2)
      (imul cp a) (imul cp b) :: ps, by simp [hlen], ?_⟩
    simp only [probRun, prob_clean eng tm s a b e cp hs, hrun]
    simp [queryCalls, afterQueries]

/-- The specification's ten energies for the band `[1/2, 3/2)`. -/
theorem sampleEnergies_half_to_three_halves :
    sampleEnergies (1 / 2 : ℚ) (3 / 2) 10 =
      [1 / 2, 3 / 5, 7 / 10, 4 / 5, 9 / 10, 1, 11 / 10, 6 / 5, 13 / 10, 7 / 5] := by
  norm_num [sampleEnergies, List.range, List.range.loop]

/-- One turn of the loop of `averageprob`: the energy handed to `prob` is
`averageprobEnergy` at the loop variable. -/
theorem averageprobLoop_step {R : Type} [Field R] (eng : Engine R) (tm : TMath R)
    (a b : Int) (lo hi : R) (cp n i : Int) (psum : R) (count : Int) (s : Probability R) :
    Probability.averageprobLoop eng tm a b lo hi cp n i psum count s =
      if i < n then
        match s.prob eng tm a b (averageprobEnergy lo hi n i) cp with
        | (.ok p, s) =>
          Probability.averageprobLoop eng tm a b lo hi cp n (i + 1) (psum + p) (count + 1) s
        | (.error e, s) => (.error e, s)
      else (.ok (psum, count), s) := by
  rw [Probability.averageprobLoop]
  rfl

/-- On a touched object the loop of `averageprob` throws at its first turn, if
it has one, and leaves the object as it was. -/
theorem averageprobLoop_touched {R : Type} [Field R] (eng : Engine R) (tm : TMath R)
    (a b : Int) (lo hi : R) (cp n i : Int) (psum : R) (count : Int) (s : Probability R)
    (h : s.istouched = true) :
    Probability.averageprobLoop eng tm a b lo hi cp n i psum count s =
      if i < n then (.error StdException.exception, s) else (.ok (psum, count), s) := by
  rw [averageprobLoop_step]
  split_ifs
  · rw [prob_touched eng tm s _ _ _ _ h]
  · rfl

/-- The energies of the specification are those the loop computes. -/
theorem sampleEnergies_eq_averageprobEnergy {R : Type} [Field R] (lo hi : R) (n : Int) :
    sampleEnergies lo hi n =
      (List.range n.toNat).map (fun i : ℕ => averageprobEnergy lo hi n i) := by
  unfold sampleEnergies averageprobEnergy
  refine List.map_congr_left fun i _ => ?_
  push_cast
  ring

/-- The `SetMNS` energies of the record successful queries leave. -/
theorem setMNSEnergies_afterQueries {R : Type} [Field R] (tm : TMath R) (s : Probability R)
    (a b : Int) (cp : Int) (es : List R) :
    setMNSEnergies (afterQueries tm s a b cp es).bargerprop =
      setMNSEnergies s.bargerprop ++ es := by
  have happ : ∀ l1 l2 : List (EngineCall R),
      setMNSEnergies (l1 ++ l2) = setMNSEnergies l1 ++ setMNSEnergies l2 := by
    intro l1 l2
    induction l1 with
    | nil => rfl
    | cons c l1 ih => cases c <;> simp [setMNSEnergies, ih]
  have hflat : setMNSEnergies (es.flatMap (fun e => queryCalls tm s a b e cp)) = es := by
    induction es with
    | nil => rfl
    | cons e es ih =>
      rw [List.flatMap_cons, happ, ih]
      rfl
  simp only [afterQueries, happ, hflat]

/-- On a touched object `averageprob` leaves the object as it was: it throws
at the first sample, or has no sample at all. -/
theorem averageprob_touched {R : Type} [Field R] (eng : Engine R) (tm : TMath R)
    (s : Probability R) (a b : Int) (lo hi : R) (cp n : Int) (h : s.istouched = true) :
    (s.averageprob eng tm a b lo hi cp n).2 = s := by
  rw [Probability.averageprob, averageprobLoop_touched eng tm _ _ _ _ _ _ _ _ _ s h]
  split_ifs <;> rfl

/-- On a clean object and for `nsamples ≥ 0` the loop of `averageprob` ends
with `count = nsamples`, after successful queries at the loop's energies. -/
theorem averageprobLoop_clean {R : Type} [Field R] (eng : Engine R) (tm : TMath R)
    (s : Probability R) (a b : Int) (lo hi : R) (cp n : Int) (hn : 0 ≤ n)
    (h : s.istouched = false) :
    ∃ psum : R,
      Probability.averageprobLoop eng tm a b lo hi cp n 0 0 0 s =
        (.ok (psum, n), afterQueries tm s a b cp (sampleEnergies lo hi n)) := by
  have hl := averageprobLoop_eq_probRun eng tm a b lo hi cp n n.toNat 0 0 0 s
    (by simp [Int.toNat_of_nonneg hn])
  obtain ⟨ps, hlen, hrun⟩ := probRun_clean eng tm a b cp (sampleEnergies lo hi n) s h
  simp only [Nat.cast_zero] at hl
  rw [sampleEnergies, List.range_eq_range'] at hrun hlen
  rw [hl, hrun]
  refine ⟨0 + ps.sum, ?_⟩
  have : (0 : Int) + (ps.length : Int) = n := by
    rw [hlen]
    simp only [List.length_map, List.length_range']
    omega
  simp only [this, sampleEnergies, List.range_eq_range']

/-- Over the reals, `sin² (2 * (arcsin (√c) / 2)) = c` for `c` in `[0, 1]`. -/
theorem sin_sq_two_mul_half_arcsin_sqrt (c : ℝ) (h0 : 0 ≤ c) (h1 : c ≤ 1) :
    Real.sin (2 * (Real.arcsin (Real.sqrt c) / 2)) ^ 2 = c := by
  have hs : Real.sqrt c ≤ 1 := Real.sqrt_le_one.2 h1
  have hs0 : 0 ≤ Real.sqrt c := Real.sqrt_nonneg c
  rw [mul_div_cancel₀ _ (two_ne_zero), Real.sin_arcsin (by linarith) hs, Real.sq_sqrt h0]

end lemmas

/-! ## The dirty flag and the stale-parameter failure -/

section claims

/-- C1, as the claim states it, fails: on a freshly constructed object,
`setTheta12(1/2)` followed directly by `prob(2, 2, 3/5, 1)` throws; the flag is
still set afterwards and the propagator has received nothing but the
constructor's `UseMassEigenstates(0)`. -/
theorem C1_cex_setTheta12_then_prob_throws :
    (((Probability.new sampleTMath true).setTheta12 (1 / 2)).prob echoEngine sampleTMath
        2 2 (3 / 5) 1).1 = .error StdException.exception ∧
    (((Probability.new sampleTMath true).setTheta12 (1 / 2)).prob echoEngine sampleTMath
        2 2 (3 / 5) 1).2.istouched = true ∧
    (((Probability.new sampleTMath true).setTheta12 (1 / 2)).prob echoEngine sampleTMath
        2 2 (3 / 5) 1).2.bargerprop = [EngineCall.UseMassEigenstates false] :=
  ⟨rfl, rfl, rfl⟩

/-- C1 (amended): for every state and every oscillation-parameter setter, a
`prob` query issued directly after the setter throws `std::exception` and
leaves the object exactly as the setter left it (flag still set, no call on the
propagator): nothing recomputes automatically. Once `update()` has been called
after the setter, the same query returns the value of `GetProb` and the flag is
clear. -/
theorem C1_setter_then_prob {R : Type} [Field R] (eng : Engine R) (tm : TMath R) (s : Probability R)
    (a b c d e f : R) (initFlavour finalFlavour : Int) (energy : R) (cp : Int) :
    (∀ t ∈ [s.setAll a b c d e f, s.setTheta12 a, s.setTheta13 a, s.setTheta23 a,
            s.setDeltaCP a, s.setSmallDeltaMassSquared a, s.setLargeDeltaMassSquared a],
        t.prob eng tm initFlavour finalFlavour energy cp
          = (.error StdException.exception, t)) ∧
    (∀ t ∈ [s.setAll a b c d e f, s.setTheta12 a, s.setTheta13 a, s.setTheta23 a,
            s.setDeltaCP a, s.setSmallDeltaMassSquared a, s.setLargeDeltaMassSquared a],
        (t.update.prob eng tm initFlavour finalFlavour energy cp).1
          = .ok (eng.GetProb
              (t.bargerprop ++ (queryCalls tm t initFlavour finalFlavour energy cp).take 2)
              (imul cp initFlavour) (imul cp finalFlavour)) ∧
        (t.update.prob eng tm initFlavour finalFlavour energy cp).2.istouched = false) := by
  have touched : ∀ t ∈ [s.setAll a b c d e f, s.setTheta12 a, s.setTheta13 a,
      s.setTheta23 a, s.setDeltaCP a, s.setSmallDeltaMassSquared a,
      s.setLargeDeltaMassSquared a], t.istouched = true := by
    intro t ht
    simp only [List.mem_cons, List.mem_singleton, List.not_mem_nil, or_false] at ht
    rcases ht with h | h | h | h | h | h | h <;> subst h <;> rfl
  refine ⟨fun t ht => prob_touched eng tm t _ _ _ _ (touched t ht), fun t _ => ?_⟩
  have hc : t.update.istouched = false := rfl
  rw [prob_clean eng tm t.update _ _ _ _ hc]
  exact ⟨rfl, rfl⟩

/-- C2, as the claim states it, fails: the flag of a constructed object is
clear, also when the uninitialised member happened to hold `true`. -/
theorem C2_new_is_clean_example :
    (Probability.new sampleTMath true).istouched = false ∧
    (Probability.new sampleTMath false).istouched = false :=
  ⟨rfl, rfl⟩

/-- C2 (amended): immediately after construction the dirty flag `istouched` is
false, whatever the uninitialised member held: the constructor ends with
`update()`, so the initial state of the machine is CLEAN. -/
theorem C2_new_is_clean {R : Type} [Field R] (tm : TMath R) (junk : Bool) :
    (Probability.new tm junk).istouched = false :=
  rfl

/-- C3: `prob` and `getVacuumProbability` throw if and only if the flag is set
when they are called (the test is the first statement, right before the calls
on the propagator); a query that throws leaves the whole object unchanged: the
record of propagator calls, the six parameters, the baseline and the flag. -/
theorem C3_never_propagate_stale {R : Type} [Field R]
    (eng : Engine R) (tm : TMath R) (s : Probability R)
    (initFlavour finalFlavour : Int) (energy : R) (cp : Int) :
    (((s.prob eng tm initFlavour finalFlavour energy cp).1 = .error StdException.exception
        ↔ s.istouched = true) ∧
     ((s.getVacuumProbability eng tm initFlavour finalFlavour energy cp).1
        = .error StdException.exception ↔ s.istouched = true)) ∧
    ((s.prob eng tm initFlavour finalFlavour energy cp).1 = .error StdException.exception →
        (s.prob eng tm initFlavour finalFlavour energy cp).2 = s) ∧
    ((s.getVacuumProbability eng tm initFlavour finalFlavour energy cp).1
        = .error StdException.exception →
        (s.getVacuumProbability eng tm initFlavour finalFlavour energy cp).2 = s) := by
  cases h : s.istouched
  · simp [prob_clean eng tm s _ _ _ _ h, getVacuumProbability_clean eng tm s _ _ _ _ h]
  · simp [prob_touched eng tm s _ _ _ _ h, getVacuumProbability_touched eng tm s _ _ _ _ h]

/-- C3 at two concrete objects: the touched one throws and is unchanged, the
clean one returns. -/
theorem C3_never_propagate_stale_witness :
    (sampleState.setDeltaCP 1).istouched = true ∧
    ((sampleState.setDeltaCP 1).prob echoEngine sampleTMath 2 1 (3 / 5) 1).1
      = .error StdException.exception ∧
    ((sampleState.setDeltaCP 1).prob echoEngine sampleTMath 2 1 (3 / 5) 1).2
      = sampleState.setDeltaCP 1 ∧
    (sampleState.prob echoEngine sampleTMath 2 1 (3 / 5) 1).1 = .ok (3 / 5) :=
  ⟨rfl,
   (C3_never_propagate_stale echoEngine sampleTMath (sampleState.setDeltaCP 1)
      2 1 (3 / 5) 1).1.1.2 rfl,
   (C3_never_propagate_stale echoEngine sampleTMath (sampleState.setDeltaCP 1)
      2 1 (3 / 5) 1).2.1 rfl,
   rfl⟩

/-- C4: a `prob` query on a freshly constructed object, with any flavours,
energy and cp, does not throw: the flag is clear when the query starts, the
query returns the value of `GetProb`, and the flag is clear afterwards. -/
theorem C4_prob_after_new {R : Type} [Field R] (eng : Engine R) (tm : TMath R) (junk : Bool)
    (initFlavour finalFlavour : Int) (energy : R) (cp : Int) :
    (Probability.new tm junk).istouched = false ∧
    ((Probability.new tm junk).prob eng tm initFlavour finalFlavour energy cp).1
      = .ok (eng.GetProb
          ((Probability.new tm junk).bargerprop ++
            (queryCalls tm (Probability.new tm junk) initFlavour finalFlavour energy cp).take 2)
          (imul cp initFlavour) (imul cp finalFlavour)) ∧
    ((Probability.new tm junk).prob eng tm initFlavour finalFlavour energy cp).2.istouched
      = false := by
  rw [prob_clean eng tm (Probability.new tm junk) _ _ _ _ rfl]
  exact ⟨rfl, rfl, rfl⟩

/-- C5: each of the seven oscillation-parameter setters leaves the flag true,
for every state and argument (so also when the value stored is the one already
there), and `setBaseline` leaves the flag as it was. -/
theorem C5_setters_and_flag {R : Type} (s : Probability R) (a b c d e f l : R) :
    ((s.setAll a b c d e f).istouched = true ∧ (s.setTheta12 a).istouched = true ∧
     (s.setTheta13 a).istouched = true ∧ (s.setTheta23 a).istouched = true ∧
     (s.setDeltaCP a).istouched = true ∧ (s.setSmallDeltaMassSquared a).istouched = true ∧
     (s.setLargeDeltaMassSquared a).istouched = true) ∧
    ((s.setAll s.theta12 s.theta23 s.theta13 s.deltacp s.sdm s.ldm).istouched = true ∧
     (s.setTheta12 s.theta12).istouched = true ∧ (s.setTheta13 s.theta13).istouched = true ∧
     (s.setTheta23 s.theta23).istouched = true ∧ (s.setDeltaCP s.deltacp).istouched = true ∧
     (s.setSmallDeltaMassSquared s.sdm).istouched = true ∧
     (s.setLargeDeltaMassSquared s.ldm).istouched = true) ∧
    (s.setBaseline l).istouched = s.istouched :=
  ⟨⟨rfl, rfl, rfl, rfl, rfl, rfl, rfl⟩, ⟨rfl, rfl, rfl, rfl, rfl, rfl, rfl⟩, rfl⟩

/-! ## The averaged query -/

/-- C6: on a clean object and for `nsamples ≥ 1`, `averageprob` queries `prob`
at exactly the `nsamples` energies
`energylow + (i / nsamples) * (energyhigh - energylow)`, `i = 0 .. nsamples-1`,
in this order (no query throws, `ps` are the values returned), and returns
their sum divided by `nsamples`, a number since the divisor is not zero; the
object is left as these queries leave it. Arithmetic is exact (a field). -/
theorem C6_averageprob_is_mean {R : Type} [Field R] (eng : Engine R) (tm : TMath R)
    (s : Probability R) (initFlavour finalFlavour : Int) (energylow energyhigh : R)
    (cp nsamples : Int) (hclean : s.istouched = false) (hn : 1 ≤ nsamples) :
    ∃ ps : List R,
      ((sampleEnergies energylow energyhigh nsamples).length : Int) = nsamples ∧
      (ps.length : Int) = nsamples ∧
      probRun eng tm initFlavour finalFlavour cp
          (sampleEnergies energylow energyhigh nsamples) s =
        (.ok ps, afterQueries tm s initFlavour finalFlavour cp
          (sampleEnergies energylow energyhigh nsamples)) ∧
      s.averageprob eng tm initFlavour finalFlavour energylow energyhigh cp nsamples =
        (.ok (DoubleQuotient.value (ps.sum / (nsamples : R))),
          afterQueries tm s initFlavour finalFlavour cp
            (sampleEnergies energylow energyhigh nsamples)) := by
  obtain ⟨ps, hlen, hrun⟩ := probRun_clean eng tm initFlavour finalFlavour cp
    (sampleEnergies energylow energyhigh nsamples) s hclean
  have hl : ((sampleEnergies energylow energyhigh nsamples).length : Int) = nsamples := by
    simp only [sampleEnergies, List.length_map, List.length_range]
    omega
  refine ⟨ps, hl, by rw [hlen]; exact hl, hrun, ?_⟩
  rw [averageprob_eq_probRun eng tm s _ _ _ _ _ _ (by omega), hrun]
  simp only [hlen, hl]
  rw [divByInt_of_ne_zero _ _ (by omega)]

/-- C6 at `averageprob(2, 2, 0.5, 1.5, 1, 10)` on a clean object, with an engine
that answers the configured energy: the energies configured on the propagator
are `0.5, 0.6, …, 1.4`, and the result is their mean `0.95`. -/
theorem C6_averageprob_is_mean_witness :
    sampleState.istouched = false ∧ (1 : Int) ≤ 10 ∧
    (sampleState.averageprob echoEngine sampleTMath 2 2 (1 / 2) (3 / 2) 1 10).1
      = .ok (DoubleQuotient.value (19 / 20)) ∧
    setMNSEnergies
        (sampleState.averageprob echoEngine sampleTMath 2 2 (1 / 2) (3 / 2) 1 10).2.bargerprop
      = [1 / 2, 3 / 5, 7 / 10, 4 / 5, 9 / 10, 1, 11 / 10, 6 / 5, 13 / 10, 7 / 5] := by
  obtain ⟨ps, -, -, hrun, havg⟩ := C6_averageprob_is_mean echoEngine sampleTMath sampleState
    2 2 (1 / 2) (3 / 2) 1 10 rfl (by decide)
  rw [sampleEnergies_half_to_three_halves] at hrun havg
  have hval : (probRun echoEngine sampleTMath 2 2 1
      [1 / 2, 3 / 5, 7 / 10, 4 / 5, 9 / 10, 1, 11 / 10, 6 / 5, 13 / 10, 7 / 5] sampleState).1
      = .ok [1 / 2, 3 / 5, 7 / 10, 4 / 5, 9 / 10, 1, 11 / 10, 6 / 5, 13 / 10, 7 / 5] := rfl
  have hps : ps = [1 / 2, 3 / 5, 7 / 10, 4 / 5, 9 / 10, 1, 11 / 10, 6 / 5, 13 / 10, 7 / 5] :=
    Except.ok.inj ((congrArg Prod.fst hrun).symm.trans hval)
  subst hps
  refine ⟨rfl, by decide, ?_, ?_⟩
  · rw [havg]; norm_num
  · rw [havg]; rfl

/-! ## Flavour and CP -/

/-- C7: on the six codes `±12, ±14, ±16`, `Flavour::frompdg` returns the flavour
keyed by the magnitude (`NU_E = 1` for 12, `NU_MU = 2` for 14, `NU_TAU = 3` for
16), the result does not depend on the sign, and the three flavours are
pairwise distinct. -/
theorem C7_frompdg_known_codes :
    (Flavour.frompdg 12 = .ok Flavour.NU_E ∧ Flavour.frompdg (-12) = .ok Flavour.NU_E ∧
     Flavour.frompdg 14 = .ok Flavour.NU_MU ∧ Flavour.frompdg (-14) = .ok Flavour.NU_MU ∧
     Flavour.frompdg 16 = .ok Flavour.NU_TAU ∧ Flavour.frompdg (-16) = .ok Flavour.NU_TAU) ∧
    (Flavour.NU_E = 1 ∧ Flavour.NU_MU = 2 ∧ Flavour.NU_TAU = 3) ∧
    (∀ pdg ∈ [(12 : Int), -12, 14, -14, 16, -16],
      Flavour.frompdg pdg = Flavour.frompdg (-pdg)) ∧
    (Flavour.NU_E ≠ Flavour.NU_MU ∧ Flavour.NU_E ≠ Flavour.NU_TAU ∧
     Flavour.NU_MU ≠ Flavour.NU_TAU) := by
  refine ⟨⟨rfl, rfl, rfl, rfl, rfl, rfl⟩, ⟨rfl, rfl, rfl⟩, ?_, by decide⟩
  intro pdg hpdg
  simp only [List.mem_cons, List.mem_singleton, List.not_mem_nil, or_false] at hpdg
  rcases hpdg with h | h | h | h | h | h <;> subst h <;> rfl

/-- C8: for every `int` value `pdg`, `Flavour::frompdg` throws if and only if
the magnitude of `pdg` is none of 12, 14, 16. (`abs` of the most negative `int`
is taken as the two's-complement result, the most negative `int` itself.) -/
theorem C8_frompdg_throws_iff (pdg : Int) (h : isInt32 pdg) :
    Flavour.frompdg pdg = .error StdException.exception ↔
      ¬ (pdg.natAbs = 12 ∨ pdg.natAbs = 14 ∨ pdg.natAbs = 16) := by
  unfold isInt32 at h
  unfold Flavour.frompdg abs wrapInt
  split_ifs <;> simp <;> omega

/-- C8 at `0`, `13` and the most negative `int`, which are rejected, and at
`-14`, which is not. -/
theorem C8_frompdg_throws_iff_witness :
    (isInt32 0 ∧ Flavour.frompdg 0 = .error StdException.exception) ∧
    (isInt32 13 ∧ Flavour.frompdg 13 = .error StdException.exception) ∧
    (isInt32 (-2147483648) ∧
      Flavour.frompdg (-2147483648) = .error StdException.exception) ∧
    (isInt32 (-14) ∧ Flavour.frompdg (-14) ≠ .error StdException.exception) :=
  ⟨⟨by decide, (C8_frompdg_throws_iff 0 (by decide)).2 (by decide)⟩,
   ⟨by decide, (C8_frompdg_throws_iff 13 (by decide)).2 (by decide)⟩,
   ⟨by decide, (C8_frompdg_throws_iff (-2147483648) (by decide)).2 (by decide)⟩,
   ⟨by decide, fun h => (C8_frompdg_throws_iff (-14) (by decide)).1 h (by decide)⟩⟩

/-- C9: `CP::frompdg` is total (no path throws) and, for every integer `pdg`,
returns `ANTI_MATTER = -1` exactly when `pdg < 0` and `MATTER = 1` exactly when
`0 ≤ pdg`; in particular `CP::frompdg(0) = MATTER`. -/
theorem C9_cp_frompdg (pdg : Int) :
    (CP.frompdg pdg = CP.ANTI_MATTER ↔ pdg < 0) ∧
    (CP.frompdg pdg = CP.MATTER ↔ 0 ≤ pdg) ∧
    CP.frompdg 0 = CP.MATTER ∧ CP.ANTI_MATTER = -1 ∧ CP.MATTER = 1 := by
  unfold CP.frompdg CP.ANTI_MATTER CP.MATTER
  refine ⟨?_, ?_, rfl, rfl, rfl⟩ <;> split_ifs with h <;> constructor <;> intro h1 <;>
    first | omega | contradiction

/-! ## The calls a query makes -/

/-- C10: on a clean object, `prob` makes exactly three calls on the propagator,
in this order: `SetMNS(sin²θ12, sin²θ13, sin²θ23, sdm, ldm - sdm, deltacp, energy,
true, cp)`, `propagateLinear(cp, length, 2.6)`, `GetProb(cp*initFlavour,
cp*finalFlavour)`; it returns the value of that `GetProb` as it is, and changes
nothing else of the object. The products are `int` products; they are the
exact products whenever those fit an `int`. -/
theorem C10_prob_engine_calls {R : Type} [Field R] (eng : Engine R) (tm : TMath R)
    (s : Probability R) (initFlavour finalFlavour : Int) (energy : R) (cp : Int)
    (hclean : s.istouched = false) :
    s.prob eng tm initFlavour finalFlavour energy cp =
      (.ok (eng.GetProb
          (s.bargerprop ++
            [EngineCall.SetMNS (tm.Sin s.theta12 ^ 2) (tm.Sin s.theta13 ^ 2)
               (tm.Sin s.theta23 ^ 2) s.sdm (s.ldm - s.sdm) s.deltacp energy true cp,
             EngineCall.propagateLinear cp s.length ((2.6 : ℚ) : R)])
          (imul cp initFlavour) (imul cp finalFlavour)),
       { s with bargerprop := s.bargerprop ++
            [EngineCall.SetMNS (tm.Sin s.theta12 ^ 2) (tm.Sin s.theta13 ^ 2)
               (tm.Sin s.theta23 ^ 2) s.sdm (s.ldm - s.sdm) s.deltacp energy true cp,
             EngineCall.propagateLinear cp s.length ((2.6 : ℚ) : R),
             EngineCall.GetProb (imul cp initFlavour) (imul cp finalFlavour)] }) ∧
    (isInt32 (cp * initFlavour) → imul cp initFlavour = cp * initFlavour) ∧
    (isInt32 (cp * finalFlavour) → imul cp finalFlavour = cp * finalFlavour) := by
  refine ⟨prob_clean eng tm s _ _ _ _ hclean, ?_, ?_⟩ <;>
  · intro h
    unfold isInt32 at h
    unfold imul wrapInt
    omega

/-- C10 at `prob(NU_MU, NU_E, 3/5, ANTI_MATTER)` on a clean object over `ℚ`. -/
theorem C10_prob_engine_calls_witness :
    sampleState.istouched = false ∧
    sampleState.prob echoEngine sampleTMath 2 1 (3 / 5) (-1) =
      (.ok (3 / 5),
       { sampleState with bargerprop :=
          [EngineCall.UseMassEigenstates false,
           EngineCall.SetMNS (9 / 25) (1 / 36) (9 / 16) (1 / 10) (2 / 5) (3 / 2) (3 / 5)
             true (-1),
           EngineCall.propagateLinear (-1) 295 (13 / 5),
           EngineCall.GetProb (-2) (-1)] }) := by
  refine ⟨rfl, ?_⟩
  rw [(C10_prob_engine_calls echoEngine sampleTMath sampleState 2 1 (3 / 5) (-1) rfl).1]
  norm_num [sampleState, sampleTMath, echoEngine, lastEnergy, imul, wrapInt]

/-! ## What the setters store -/

/-- C11: after `setAll(a, b, c, d, e, f)` the members are `theta12 = a`,
`theta23 = b`, `theta13 = c`, `deltacp = d`, `sdm = e`, `ldm = f` (the argument
order is theta12, theta23, theta13), and the baseline is the one from before;
the record of propagator calls is unchanged too. -/
theorem C11_setAll_round_trip {R : Type} (s : Probability R) (a b c d e f : R) :
    (s.setAll a b c d e f).theta12 = a ∧ (s.setAll a b c d e f).theta23 = b ∧
    (s.setAll a b c d e f).theta13 = c ∧ (s.setAll a b c d e f).deltacp = d ∧
    (s.setAll a b c d e f).sdm = e ∧ (s.setAll a b c d e f).ldm = f ∧
    (s.setAll a b c d e f).length = s.length ∧
    (s.setAll a b c d e f).bargerprop = s.bargerprop :=
  ⟨rfl, rfl, rfl, rfl, rfl, rfl, rfl, rfl⟩

/-- C12: each of `setTheta12`, `setTheta13`, `setTheta23`, `setDeltaCP`,
`setSmallDeltaMassSquared`, `setLargeDeltaMassSquared`, `setBaseline` stores its
argument in its own member (`theta12`, `theta13`, `theta23`, `deltacp`, `sdm`,
`ldm`, `length`) and leaves the other six of these seven members as they
were. -/
theorem C12_single_setters {R : Type} (s : Probability R) (v : R) :
    (s.setTheta12 v =
      { s with theta12 := v, istouched := true }) ∧
    (s.setTheta13 v =
      { s with theta13 := v, istouched := true }) ∧
    (s.setTheta23 v =
      { s with theta23 := v, istouched := true }) ∧
    (s.setDeltaCP v =
      { s with deltacp := v, istouched := true }) ∧
    (s.setSmallDeltaMassSquared v =
      { s with sdm := v, istouched := true }) ∧
    (s.setLargeDeltaMassSquared v =
      { s with ldm := v, istouched := true }) ∧
    (s.setBaseline v =
      { s with length := v }) ∧
    ((s.setTheta12 v).theta12 = v ∧ (s.setTheta12 v).theta13 = s.theta13 ∧
      (s.setTheta12 v).theta23 = s.theta23 ∧ (s.setTheta12 v).deltacp = s.deltacp ∧
      (s.setTheta12 v).sdm = s.sdm ∧ (s.setTheta12 v).ldm = s.ldm ∧
      (s.setTheta12 v).length = s.length) ∧
    ((s.setTheta13 v).theta12 = s.theta12 ∧ (s.setTheta13 v).theta13 = v ∧
      (s.setTheta13 v).theta23 = s.theta23 ∧ (s.setTheta13 v).deltacp = s.deltacp ∧
      (s.setTheta13 v).sdm = s.sdm ∧ (s.setTheta13 v).ldm = s.ldm ∧
      (s.setTheta13 v).length = s.length) ∧
    ((s.setTheta23 v).theta12 = s.theta12 ∧ (s.setTheta23 v).theta13 = s.theta13 ∧
      (s.setTheta23 v).theta23 = v ∧ (s.setTheta23 v).deltacp = s.deltacp ∧
      (s.setTheta23 v).sdm = s.sdm ∧ (s.setTheta23 v).ldm = s.ldm ∧
      (s.setTheta23 v).length = s.length) ∧
    ((s.setDeltaCP v).theta12 = s.theta12 ∧ (s.setDeltaCP v).theta13 = s.theta13 ∧
      (s.setDeltaCP v).theta23 = s.theta23 ∧ (s.setDeltaCP v).deltacp = v ∧
      (s.setDeltaCP v).sdm = s.sdm ∧ (s.setDeltaCP v).ldm = s.ldm ∧
      (s.setDeltaCP v).length = s.length) ∧
    ((s.setSmallDeltaMassSquared v).theta12 = s.theta12 ∧
      (s.setSmallDeltaMassSquared v).theta13 = s.theta13 ∧
      (s.setSmallDeltaMassSquared v).theta23 = s.theta23 ∧
      (s.setSmallDeltaMassSquared v).deltacp = s.deltacp ∧
      (s.setSmallDeltaMassSquared v).sdm = v ∧
      (s.setSmallDeltaMassSquared v).ldm = s.ldm ∧
      (s.setSmallDeltaMassSquared v).length = s.length) ∧
    ((s.setLargeDeltaMassSquared v).theta12 = s.theta12 ∧
      (s.setLargeDeltaMassSquared v).theta13 = s.theta13 ∧
      (s.setLargeDeltaMassSquared v).theta23 = s.theta23 ∧
      (s.setLargeDeltaMassSquared v).deltacp = s.deltacp ∧
      (s.setLargeDeltaMassSquared v).sdm = s.sdm ∧
      (s.setLargeDeltaMassSquared v).ldm = v ∧
      (s.setLargeDeltaMassSquared v).length = s.length) ∧
    ((s.setBaseline v).theta12 = s.theta12 ∧ (s.setBaseline v).theta13 = s.theta13 ∧
      (s.setBaseline v).theta23 = s.theta23 ∧ (s.setBaseline v).deltacp = s.deltacp ∧
      (s.setBaseline v).sdm = s.sdm ∧ (s.setBaseline v).ldm = s.ldm ∧
      (s.setBaseline v).length = v) :=
  ⟨rfl, rfl, rfl, rfl, rfl, rfl, rfl,
   ⟨rfl, rfl, rfl, rfl, rfl, rfl, rfl⟩, ⟨rfl, rfl, rfl, rfl, rfl, rfl, rfl⟩,
   ⟨rfl, rfl, rfl, rfl, rfl, rfl, rfl⟩, ⟨rfl, rfl, rfl, rfl, rfl, rfl, rfl⟩,
   ⟨rfl, rfl, rfl, rfl, rfl, rfl, rfl⟩, ⟨rfl, rfl, rfl, rfl, rfl, rfl, rfl⟩,
   ⟨rfl, rfl, rfl, rfl, rfl, rfl, rfl⟩⟩

/-- C13: on a clean object, `setBaseline(l)` alone (no `update()`) leaves the
flag clear, and the next `prob` query returns: its `propagateLinear` call
carries `l` as the path length, while its `SetMNS` and `GetProb` calls (and
the other two arguments of `propagateLinear`) are those of the same query
made without the `setBaseline` call. -/
theorem C13_setBaseline_then_prob {R : Type} [Field R] (eng : Engine R) (tm : TMath R)
    (s : Probability R) (l : R) (initFlavour finalFlavour : Int) (energy : R) (cp : Int)
    (hclean : s.istouched = false) :
    (s.setBaseline l).istouched = false ∧
    (s.setBaseline l).prob eng tm initFlavour finalFlavour energy cp =
      (.ok (eng.GetProb
          (s.bargerprop ++
            [EngineCall.SetMNS (tm.Sin s.theta12 ^ 2) (tm.Sin s.theta13 ^ 2)
               (tm.Sin s.theta23 ^ 2) s.sdm (s.ldm - s.sdm) s.deltacp energy true cp,
             EngineCall.propagateLinear cp l ((2.6 : ℚ) : R)])
          (imul cp initFlavour) (imul cp finalFlavour)),
       { s.setBaseline l with bargerprop := s.bargerprop ++
            [EngineCall.SetMNS (tm.Sin s.theta12 ^ 2) (tm.Sin s.theta13 ^ 2)
               (tm.Sin s.theta23 ^ 2) s.sdm (s.ldm - s.sdm) s.deltacp energy true cp,
             EngineCall.propagateLinear cp l ((2.6 : ℚ) : R),
             EngineCall.GetProb (imul cp initFlavour) (imul cp finalFlavour)] }) ∧
    (s.prob eng tm initFlavour finalFlavour energy cp).2.bargerprop =
      s.bargerprop ++
        [EngineCall.SetMNS (tm.Sin s.theta12 ^ 2) (tm.Sin s.theta13 ^ 2)
           (tm.Sin s.theta23 ^ 2) s.sdm (s.ldm - s.sdm) s.deltacp energy true cp,
         EngineCall.propagateLinear cp s.length ((2.6 : ℚ) : R),
         EngineCall.GetProb (imul cp initFlavour) (imul cp finalFlavour)] := by
  have h1 : (s.setBaseline l).istouched = false := hclean
  refine ⟨h1, ?_, ?_⟩
  · rw [prob_clean eng tm (s.setBaseline l) _ _ _ _ h1]
    rfl
  · rw [prob_clean eng tm s _ _ _ _ hclean]
    rfl

/-- C13 at `setBaseline(810)` then `prob(2, 1, 3/5, 1)` on a clean object over
`ℚ`: the query returns and the path length handed to the propagator is 810. -/
theorem C13_setBaseline_then_prob_witness :
    sampleState.istouched = false ∧
    ((sampleState.setBaseline 810).prob echoEngine sampleTMath 2 1 (3 / 5) 1).1
      = .ok (3 / 5) ∧
    ((sampleState.setBaseline 810).prob echoEngine sampleTMath 2 1 (3 / 5) 1).2.bargerprop
      = [EngineCall.UseMassEigenstates false,
         EngineCall.SetMNS (9 / 25) (1 / 36) (9 / 16) (1 / 10) (2 / 5) (3 / 2) (3 / 5) true 1,
         EngineCall.propagateLinear 1 810 (13 / 5),
         EngineCall.GetProb 2 1] := by
  have h := (C13_setBaseline_then_prob echoEngine sampleTMath sampleState 810
    2 1 (3 / 5) 1 rfl).2.1
  refine ⟨rfl, ?_, ?_⟩
  · rw [h]; rfl
  · rw [h]
    norm_num [sampleState, sampleTMath, imul, wrapInt]

/-! ## The averaged query: one sample, and the stale-parameter failure -/

/-- C15: on a touched object and for `nsamples ≥ 1`, `averageprob` throws the
`std::exception` that `prob` throws at the first sample (energy `energylow`
in exact arithmetic, the loop's energy at `i = 0`): no value is returned, so
no average over the samples so far either, and the object is left as it was, so no call
reached the propagator and no later sample was evaluated. -/
theorem C15_averageprob_first_failure {R : Type} [Field R] (eng : Engine R) (tm : TMath R)
    (s : Probability R) (initFlavour finalFlavour : Int) (energylow energyhigh : R)
    (cp nsamples : Int) (hdirty : s.istouched = true) (hn : 1 ≤ nsamples) :
    s.averageprob eng tm initFlavour finalFlavour energylow energyhigh cp nsamples =
      (.error StdException.exception, s) ∧
    s.prob eng tm initFlavour finalFlavour
        (averageprobEnergy energylow energyhigh nsamples 0) cp =
      (.error StdException.exception, s) ∧
    (s.averageprob eng tm initFlavour finalFlavour energylow energyhigh cp nsamples
      ).2.bargerprop = s.bargerprop := by
  have havg : s.averageprob eng tm initFlavour finalFlavour energylow energyhigh cp nsamples
      = (.error StdException.exception, s) := by
    have hlt : (0 : Int) < nsamples := by omega
    rw [Probability.averageprob, averageprobLoop_touched eng tm _ _ _ _ _ _ _ _ _ s hdirty,
      if_pos hlt]
  exact ⟨havg, prob_touched eng tm s _ _ _ _ hdirty, by rw [havg]⟩

/-- C15 at `averageprob(2, 2, 1/2, 3/2, 1, 10)` right after `setDeltaCP(1)`. -/
theorem C15_averageprob_first_failure_witness :
    (sampleState.setDeltaCP 1).istouched = true ∧ (1 : Int) ≤ 10 ∧
    (sampleState.setDeltaCP 1).averageprob echoEngine sampleTMath 2 2 (1 / 2) (3 / 2) 1 10
      = (.error StdException.exception, sampleState.setDeltaCP 1) :=
  ⟨rfl, by decide,
   (C15_averageprob_first_failure echoEngine sampleTMath (sampleState.setDeltaCP 1)
      2 2 (1 / 2) (3 / 2) 1 10 rfl (by decide)).1⟩

/-! ## The defaults of the constructor -/

/-- C16: over the reals, with `TMath` the real `π`, `sin`, `arcsin` and `√`, the
constructed object has `sin²(2·theta23) = 1.0`, `sin²(2·theta13) = 0.1`,
`sin²(2·theta12) = 0.8495`, each angle being `arcsin(√s) / 2`, and
`deltacp = π/2`, `ldm = 2.4e-3`, `sdm = 7.6e-5`, `length = 295.0`. -/
theorem C16_default_parameters (junk : Bool) :
    (Real.sin (2 * (Probability.new
        (TMath.mk Real.pi Real.sin Real.arcsin Real.sqrt) junk).theta23) ^ 2 = 1.0 ∧
     Real.sin (2 * (Probability.new
        (TMath.mk Real.pi Real.sin Real.arcsin Real.sqrt) junk).theta13) ^ 2 = 0.1 ∧
     Real.sin (2 * (Probability.new
        (TMath.mk Real.pi Real.sin Real.arcsin Real.sqrt) junk).theta12) ^ 2 = 0.8495) ∧
    ((Probability.new (TMath.mk Real.pi Real.sin Real.arcsin Real.sqrt) junk).theta23
        = Real.arcsin (Real.sqrt 1.0) / 2 ∧
     (Probability.new (TMath.mk Real.pi Real.sin Real.arcsin Real.sqrt) junk).theta13
        = Real.arcsin (Real.sqrt 0.1) / 2 ∧
     (Probability.new (TMath.mk Real.pi Real.sin Real.arcsin Real.sqrt) junk).theta12
        = Real.arcsin (Real.sqrt 0.8495) / 2) ∧
    (Probability.new (TMath.mk Real.pi Real.sin Real.arcsin Real.sqrt) junk).deltacp
        = Real.pi / 2 ∧
    (Probability.new (TMath.mk Real.pi Real.sin Real.arcsin Real.sqrt) junk).ldm = 2.4e-3 ∧
    (Probability.new (TMath.mk Real.pi Real.sin Real.arcsin Real.sqrt) junk).sdm = 7.6e-5 ∧
    (Probability.new (TMath.mk Real.pi Real.sin Real.arcsin Real.sqrt) junk).length
        = 295.0 := by
  have h23 : (Probability.new (TMath.mk Real.pi Real.sin Real.arcsin Real.sqrt) junk).theta23
      = Real.arcsin (Real.sqrt 1.0) / 2 := by
    simp only [Probability.new, Probability.update]; norm_num
  have h13 : (Probability.new (TMath.mk Real.pi Real.sin Real.arcsin Real.sqrt) junk).theta13
      = Real.arcsin (Real.sqrt 0.1) / 2 := by
    simp only [Probability.new, Probability.update]; norm_num
  have h12 : (Probability.new (TMath.mk Real.pi Real.sin Real.arcsin Real.sqrt) junk).theta12
      = Real.arcsin (Real.sqrt 0.8495) / 2 := by
    simp only [Probability.new, Probability.update]; norm_num
  refine ⟨⟨?_, ?_, ?_⟩, ⟨h23, h13, h12⟩, ?_, ?_, ?_, ?_⟩
  · rw [h23]; exact sin_sq_two_mul_half_arcsin_sqrt 1.0 (by norm_num) (by norm_num)
  · rw [h13]; exact sin_sq_two_mul_half_arcsin_sqrt 0.1 (by norm_num) (by norm_num)
  · rw [h12]; exact sin_sq_two_mul_half_arcsin_sqrt 0.8495 (by norm_num) (by norm_num)
  · simp only [Probability.new, Probability.update]; norm_num
  · simp only [Probability.new, Probability.update]; norm_num
  · simp only [Probability.new, Probability.update]; norm_num
  · simp only [Probability.new, Probability.update]; norm_num

/-! ## The transitions of the dirty flag -/

/-- C17: started on an object whose flag is set, each of `setAll`, the six
single-parameter setters, `setBaseline`, `prob`, `getVacuumProbability` and
`averageprob` (with any arguments, whether it returns or throws) leaves an
object whose flag is still set; `update()` is the one operation that clears
it. -/
theorem C17_only_update_clears {R : Type} [Field R] (eng : Engine R) (tm : TMath R)
    (s : Probability R) (a b c d e f l : R) (initFlavour finalFlavour : Int)
    (energy energylow energyhigh : R) (cp nsamples : Int) (hdirty : s.istouched = true) :
    ((s.setAll a b c d e f).istouched = true ∧ (s.setTheta12 a).istouched = true ∧
     (s.setTheta13 a).istouched = true ∧ (s.setTheta23 a).istouched = true ∧
     (s.setDeltaCP a).istouched = true ∧ (s.setSmallDeltaMassSquared a).istouched = true ∧
     (s.setLargeDeltaMassSquared a).istouched = true) ∧
    (s.setBaseline l).istouched = true ∧
    (s.prob eng tm initFlavour finalFlavour energy cp).2.istouched = true ∧
    (s.getVacuumProbability eng tm initFlavour finalFlavour energy cp).2.istouched = true ∧
    (s.averageprob eng tm initFlavour finalFlavour energylow energyhigh cp nsamples
      ).2.istouched = true ∧
    s.update.istouched = false := by
  refine ⟨⟨rfl, rfl, rfl, rfl, rfl, rfl, rfl⟩, hdirty, ?_, ?_, ?_, rfl⟩
  · rw [prob_touched eng tm s _ _ _ _ hdirty]; exact hdirty
  · rw [getVacuumProbability_touched eng tm s _ _ _ _ hdirty]; exact hdirty
  · rw [averageprob_touched eng tm s _ _ _ _ _ _ hdirty]; exact hdirty

/-- C17 on a touched object over `ℚ`: after a throwing `prob`, a throwing
`averageprob` with ten samples, an `averageprob` with no sample, and
`setBaseline`, the flag is still set. -/
theorem C17_only_update_clears_witness :
    (sampleState.setTheta13 (1 / 7)).istouched = true ∧
    ((sampleState.setTheta13 (1 / 7)).prob echoEngine sampleTMath 2 2 (3 / 5) 1
      ).2.istouched = true ∧
    ((sampleState.setTheta13 (1 / 7)).averageprob echoEngine sampleTMath 2 2
      (1 / 2) (3 / 2) 1 10).2.istouched = true ∧
    ((sampleState.setTheta13 (1 / 7)).averageprob echoEngine sampleTMath 2 2
      (1 / 2) (3 / 2) 1 0).2.istouched = true ∧
    ((sampleState.setTheta13 (1 / 7)).setBaseline 810).istouched = true :=
  ⟨rfl,
   (C17_only_update_clears echoEngine sampleTMath (sampleState.setTheta13 (1 / 7))
      0 0 0 0 0 0 810 2 2 (3 / 5) (1 / 2) (3 / 2) 1 10 rfl).2.2.1,
   (C17_only_update_clears echoEngine sampleTMath (sampleState.setTheta13 (1 / 7))
      0 0 0 0 0 0 810 2 2 (3 / 5) (1 / 2) (3 / 2) 1 10 rfl).2.2.2.2.1,
   (C17_only_update_clears echoEngine sampleTMath (sampleState.setTheta13 (1 / 7))
      0 0 0 0 0 0 810 2 2 (3 / 5) (1 / 2) (3 / 2) 1 0 rfl).2.2.2.2.1,
   (C17_only_update_clears echoEngine sampleTMath (sampleState.setTheta13 (1 / 7))
      0 0 0 0 0 0 810 2 2 (3 / 5) (1 / 2) (3 / 2) 1 10 rfl).2.1⟩

/-- C18: `update()` leaves the flag clear, leaves `theta12`, `theta13`,
`theta23`, `deltacp`, `sdm`, `ldm` and the baseline as they were, makes no call
on the propagator (the record is unchanged), and applying it twice gives the
object that applying it once gives. -/
theorem C18_update_frame {R : Type} (s : Probability R) :
    s.update.istouched = false ∧
    (s.update.theta12 = s.theta12 ∧ s.update.theta13 = s.theta13 ∧
     s.update.theta23 = s.theta23 ∧ s.update.deltacp = s.deltacp ∧
     s.update.sdm = s.sdm ∧ s.update.ldm = s.ldm ∧ s.update.length = s.length) ∧
    s.update.bargerprop = s.bargerprop ∧
    s.update.update = s.update :=
  ⟨rfl, ⟨rfl, rfl, rfl, rfl, rfl, rfl, rfl⟩, rfl, rfl⟩

/-! ## The energies of the averaged query -/

/-- C19: for `nsamples ≥ 1` and `energylow < energyhigh`, in exact arithmetic
(an ordered field), the energy `(1 - i/nsamples)*energylow +
(i/nsamples)*energyhigh` that the loop of `averageprob` hands to `prob` at
`i = 0 .. nsamples-1` lies in `[energylow, energyhigh)`, is `energylow` at
`i = 0`, and grows strictly with `i`. On a clean object these are exactly the
energies that reach the propagator, in this order. -/
theorem C19_upper_bound_never_sampled {R : Type} [LinearOrderedField R]
    (energylow energyhigh : R) (nsamples : Int)
    (hn : 1 ≤ nsamples) (hlt : energylow < energyhigh) :
    averageprobEnergy energylow energyhigh nsamples 0 = energylow ∧
    (∀ i : Int, 0 ≤ i → i < nsamples →
      energylow ≤ averageprobEnergy energylow energyhigh nsamples i ∧
      averageprobEnergy energylow energyhigh nsamples i < energyhigh) ∧
    (∀ i j : Int, i < j →
      averageprobEnergy energylow energyhigh nsamples i <
        averageprobEnergy energylow energyhigh nsamples j) ∧
    (∀ (eng : Engine R) (tm : TMath R) (s : Probability R)
        (initFlavour finalFlavour cp : Int), s.istouched = false →
      setMNSEnergies (s.averageprob eng tm initFlavour finalFlavour
          energylow energyhigh cp nsamples).2.bargerprop =
        setMNSEnergies s.bargerprop ++
          (List.range nsamples.toNat).map
            (fun i : ℕ => averageprobEnergy energylow energyhigh nsamples i)) := by
  have hn0 : (0 : R) < (nsamples : R) := by exact_mod_cast (by omega : (0 : Int) < nsamples)
  have hd : (0 : R) < energyhigh - energylow := sub_pos.2 hlt
  refine ⟨by simp [averageprobEnergy], ?_, ?_, ?_⟩
  · intro i hi0 hin
    have hf0 : (0 : R) ≤ (i : R) / (nsamples : R) :=
      div_nonneg (by exact_mod_cast hi0) hn0.le
    have hf1 : (i : R) / (nsamples : R) < 1 :=
      (div_lt_one hn0).2 (by exact_mod_cast hin)
    simp only [averageprobEnergy]
    constructor
    · nlinarith [mul_nonneg hf0 hd.le]
    · nlinarith [mul_pos (sub_pos.2 hf1) hd]
  · intro i j hij
    have hf : (i : R) / (nsamples : R) < (j : R) / (nsamples : R) :=
      div_lt_div_of_pos_right (by exact_mod_cast hij) hn0
    simp only [averageprobEnergy]
    nlinarith [mul_pos (sub_pos.2 hf) hd]
  · intro eng tm s a b cp hclean
    obtain ⟨ps, -, hrun⟩ := probRun_clean eng tm a b cp
      (sampleEnergies energylow energyhigh nsamples) s hclean
    rw [averageprob_eq_probRun eng tm s _ _ _ _ _ _ (by omega), hrun]
    simp only []
    rw [setMNSEnergies_afterQueries, sampleEnergies_eq_averageprobEnergy]

/-- C19 at the band `[1/2, 3/2)` with ten samples over `ℚ`: the first energy is
`1/2`, the last one, at `i = 9`, is `7/5`, below `3/2`. -/
theorem C19_upper_bound_never_sampled_witness :
    (1 : Int) ≤ 10 ∧ (1 / 2 : ℚ) < 3 / 2 ∧
    averageprobEnergy (1 / 2 : ℚ) (3 / 2) 10 0 = 1 / 2 ∧
    averageprobEnergy (1 / 2 : ℚ) (3 / 2) 10 9 = 7 / 5 ∧
    averageprobEnergy (1 / 2 : ℚ) (3 / 2) 10 9 < 3 / 2 ∧
    averageprobEnergy (1 / 2 : ℚ) (3 / 2) 10 8 < averageprobEnergy (1 / 2 : ℚ) (3 / 2) 10 9 :=
  ⟨by decide, by norm_num,
   (C19_upper_bound_never_sampled (1 / 2 : ℚ) (3 / 2) 10 (by decide) (by norm_num)).1,
   by norm_num [averageprobEnergy],
   ((C19_upper_bound_never_sampled (1 / 2 : ℚ) (3 / 2) 10 (by decide) (by norm_num)).2.1
      9 (by decide) (by decide)).2,
   (C19_upper_bound_never_sampled (1 / 2 : ℚ) (3 / 2) 10 (by decide) (by norm_num)).2.2.1
      8 9 (by decide)⟩

/-- C20: for `nsamples ≤ 0` the loop of `averageprob` has no turn: on every
object, touched ones included, it ends with `psum = 0` and `count = 0` and the
object as it was (no query, no call on the propagator, no exception), and the
value returned is `0.0 / double(0)`: the division of zero by zero (NaN), which
is no number. For `nsamples ≥ 1` on a clean object the loop ends with
`count = nsamples`, the divisor `double(count)` is `nsamples` and is not zero,
and the value returned is the number `psum / nsamples`. -/
theorem C20_averageprob_divisor {R : Type} [Field R] [CharZero R]
    (eng : Engine R) (tm : TMath R) (s : Probability R) (initFlavour finalFlavour : Int)
    (energylow energyhigh : R) (cp nsamples : Int) :
    (nsamples ≤ 0 →
      Probability.averageprobLoop eng tm initFlavour finalFlavour energylow energyhigh
          cp nsamples 0 0 0 s = (.ok (0, 0), s) ∧
      s.averageprob eng tm initFlavour finalFlavour energylow energyhigh cp nsamples =
        (.ok (divByInt 0 0), s) ∧
      s.averageprob eng tm initFlavour finalFlavour energylow energyhigh cp nsamples =
        (.ok (DoubleQuotient.byZero 0), s) ∧
      ∀ x : R,
        (s.averageprob eng tm initFlavour finalFlavour energylow energyhigh cp nsamples).1
          ≠ .ok (DoubleQuotient.value x)) ∧
    (1 ≤ nsamples → s.istouched = false →
      ∃ (psum : R) (t : Probability R),
        Probability.averageprobLoop eng tm initFlavour finalFlavour energylow energyhigh
            cp nsamples 0 0 0 s = (.ok (psum, nsamples), t) ∧
        s.averageprob eng tm initFlavour finalFlavour energylow energyhigh cp nsamples =
          (.ok (divByInt psum nsamples), t) ∧
        s.averageprob eng tm initFlavour finalFlavour energylow energyhigh cp nsamples =
          (.ok (DoubleQuotient.value (psum / (nsamples : R))), t) ∧
        nsamples ≠ 0 ∧ (nsamples : R) ≠ 0) := by
  constructor
  · intro hn
    have hloop : Probability.averageprobLoop eng tm initFlavour finalFlavour energylow
        energyhigh cp nsamples 0 0 0 s = (.ok (0, 0), s) := by
      rw [averageprobLoop_step, if_neg (by omega)]
    have havg : s.averageprob eng tm initFlavour finalFlavour energylow energyhigh cp
        nsamples = (.ok (divByInt 0 0), s) := by
      rw [Probability.averageprob, hloop]
    refine ⟨hloop, havg, by rw [havg, divByInt_zero], fun x hx => ?_⟩
    rw [havg, divByInt_zero] at hx
    cases hx
  · intro hn hclean
    obtain ⟨psum, hloop⟩ := averageprobLoop_clean eng tm s initFlavour finalFlavour
      energylow energyhigh cp nsamples (by omega) hclean
    have hne : nsamples ≠ 0 := by omega
    have havg : s.averageprob eng tm initFlavour finalFlavour energylow energyhigh cp
        nsamples = (.ok (divByInt psum nsamples), afterQueries tm s initFlavour
          finalFlavour cp (sampleEnergies energylow energyhigh nsamples)) := by
      rw [Probability.averageprob, hloop]
    refine ⟨psum, _, hloop, havg, by rw [havg, divByInt_of_ne_zero _ _ hne], hne, ?_⟩
    exact_mod_cast hne

/-- C20 over `ℚ`: with `nsamples = 0` and `nsamples = -3` on a touched object
nothing is thrown, the object is unchanged and the value is the division of
zero by zero; with `nsamples = 10` on a clean object the divisor `10` is not
zero. -/
theorem C20_averageprob_divisor_witness :
    (sampleState.setDeltaCP 1).istouched = true ∧
    (sampleState.setDeltaCP 1).averageprob echoEngine sampleTMath 2 2 (1 / 2) (3 / 2) 1 0
      = (.ok (DoubleQuotient.byZero 0), sampleState.setDeltaCP 1) ∧
    (sampleState.setDeltaCP 1).averageprob echoEngine sampleTMath 2 2 (1 / 2) (3 / 2) 1 (-3)
      = (.ok (DoubleQuotient.byZero 0), sampleState.setDeltaCP 1) ∧
    (((10 : Int) : ℚ) ≠ 0) :=
  ⟨rfl,
   ((C20_averageprob_divisor echoEngine sampleTMath (sampleState.setDeltaCP 1)
      2 2 (1 / 2) (3 / 2) 1 0).1 (by decide)).2.2.1,
   ((C20_averageprob_divisor echoEngine sampleTMath (sampleState.setDeltaCP 1)
      2 2 (1 / 2) (3 / 2) 1 (-3)).1 (by decide)).2.2.1,
   by
    obtain ⟨_, _, _, _, _, _, h⟩ := (C20_averageprob_divisor echoEngine sampleTMath
      sampleState 2 2 (1 / 2) (3 / 2) 1 10).2 (by decide) rfl
    exact h⟩

end claims

end crootprob3pp
